import Mathlib

/-!
Shallow embedding of the ReefGuard application core
(src/core/models.py, src/core/views.py, src/core/forms.py).

Machine conventions of the embedding:
* database tables are Lean lists of records; a Django queryset is a list
  whose order realizes the model Meta ordering / `order_by` clauses
  (modelled via insertion sort by a key);
* float-valued columns (area_km2, latitude, longitude, depth_meters) are
  modelled as integers: no claim depends on float rounding;
* dates are encoded as naturals in yyyymmdd form, so numeric order is
  chronological order and the year component is the quotient by 10000;
* timestamps (created_at, ...) are naturals;
* primary keys are naturals; nullable foreign keys are Option Nat;
* request GET parameters follow Django request.GET.get semantics:
  absent parameters read as the given default (empty string unless the
  code supplies another).
-/

namespace ReefGuard

/-! ### Ordering helpers: order_by on a single column -/

section SortKeys

variable {α β : Type} [LinearOrder β]

/-- Ascending order on the column extracted by f (Django order_by "col"). -/
def keyLe (f : α → β) : α → α → Prop := fun a b => f a ≤ f b

/-- Descending order on the column extracted by f (Django order_by "-col"). -/
def keyGe (f : α → β) : α → α → Prop := fun a b => f b ≤ f a

instance keyLe.isTotal (f : α → β) : IsTotal α (keyLe f) :=
  ⟨fun a b => le_total (f a) (f b)⟩

instance keyLe.isTrans (f : α → β) : IsTrans α (keyLe f) :=
  ⟨fun _ _ _ h1 h2 => le_trans h1 h2⟩

instance keyLe.decidableRel (f : α → β) : DecidableRel (keyLe f) :=
  fun a b => inferInstanceAs (Decidable (f a ≤ f b))

instance keyGe.isTotal (f : α → β) : IsTotal α (keyGe f) :=
  ⟨fun a b => le_total (f b) (f a)⟩

instance keyGe.isTrans (f : α → β) : IsTrans α (keyGe f) :=
  ⟨fun _ _ _ h1 h2 => le_trans h2 h1⟩

instance keyGe.decidableRel (f : α → β) : DecidableRel (keyGe f) :=
  fun a b => inferInstanceAs (Decidable (f b ≤ f a))

end SortKeys

/-! ### Case-insensitive substring match (Django icontains lookup) -/

/-- needle occurs at the head of hay. -/
def startsWithCh : List Char → List Char → Bool
  | _, [] => true
  | [], _ :: _ => false
  | a :: hay, b :: needle => a == b && startsWithCh hay needle

/-- needle occurs somewhere inside hay. -/
def containsCh : List Char → List Char → Bool
  | [], needle => needle.isEmpty
  | a :: hay, needle => startsWithCh (a :: hay) needle || containsCh hay needle

/-- Django field__icontains=needle : case-insensitive substring test. -/
def icontains (hay needle : String) : Bool :=
  containsCh (hay.toList.map Char.toLower) (needle.toList.map Char.toLower)

/-! ### Data model (src/core/models.py) -/

/-- Reef row (class Reef, models.py). -/
structure Reef where
  id : Nat
  name : String
  region : String
  country : String
  latitude : Int
  longitude : Int
  description : String
  area_km2 : Int
  depth_meters : Int
  health_status : String
  created_at : Nat
  created_by : Option Nat
  deriving DecidableEq, Inhabited

/-- Event row (class Event, models.py). event_date is yyyymmdd. -/
structure EventRec where
  id : Nat
  reef : Nat
  event_type : String
  title : String
  description : String
  severity : String
  event_date : Nat
  reported_by : Option Nat
  created_at : Nat
  resolved : Bool
  notes : String
  deriving DecidableEq, Inhabited

/-- Article row (class Article, models.py). -/
structure Article where
  id : Nat
  title : String
  slug : String
  category : String
  content : String
  excerpt : String
  author : Option Nat
  published : Bool
  featured : Bool
  created_at : Nat
  deriving DecidableEq, Inhabited

/-- ImageGallery row (class ImageGallery, models.py). -/
structure GalleryItem where
  reef : Option Nat
  event : Option Nat
  media_type : String
  title : String
  description : String
  fileName : String
  uploaded_by : Option Nat
  deriving DecidableEq, Inhabited

/-- ReefBookmark row (class ReefBookmark, models.py). -/
structure Bookmark where
  user : Nat
  reef : Nat
  notes : String
  deriving DecidableEq, Inhabited

/-- The year extracted from a yyyymmdd date (event_date__year lookup). -/
def dateYear (d : Nat) : Nat := d / 10000

/-! ### Bookmark toggle (views.py bookmark_toggle, lines 313-341) -/

/-- Row filter for the (user, reef) bookmark pair. -/
def bmMatches (u r : Nat) (b : Bookmark) : Bool := b.user == u && b.reef == r

/-- ReefBookmark.objects.get_or_create(user=u, reef=r): returns the found
or freshly-created row, the created flag, and the resulting table. -/
def get_or_create (s : List Bookmark) (u r : Nat) :
    Bookmark × Bool × List Bookmark :=
  match s.find? (bmMatches u r) with
  | some b => (b, false, s)
  | none => (⟨u, r, ""⟩, true, s ++ [⟨u, r, ""⟩])

/-- The state change and bookmarked flag of one toggle: get_or_create,
then delete the row when it already existed. -/
def toggleBookmark (s : List Bookmark) (u r : Nat) : List Bookmark × Bool :=
  let res := get_or_create s u r
  if res.2.1 then (res.2.2, true)
  else (res.2.2.eraseP (bmMatches u r), false)

/-- JSON responses of the toggle endpoint. -/
inductive ToggleResponse where
  | json : Bool → String → ToggleResponse
  | err : String → Nat → ToggleResponse
  | notFound : ToggleResponse
  deriving DecidableEq

/-- def bookmark_toggle(request, reef_id) (views.py lines 313-341):
authentication gate, get_object_or_404 on the reef, then toggle. -/
def bookmark_toggle (reefs : List Reef) (s : List Bookmark)
    (user : Option Nat) (reef_id : Nat) : List Bookmark × ToggleResponse :=
  match user with
  | none => (s, .err "Authentication required" 401)
  | some u =>
    match reefs.find? (fun rf => rf.id == reef_id) with
    | none => (s, .notFound)
    | some rf =>
      let res := toggleBookmark s u reef_id
      let msg := if res.2 then "Added " ++ rf.name ++ " to bookmarks"
        else "Removed " ++ rf.name ++ " from bookmarks"
      (res.1, .json res.2 msg)

/-- Number of rows for the (u, r) pair. -/
def pairCount (s : List Bookmark) (u r : Nat) : Nat :=
  s.countP (bmMatches u r)

/-- A bookmark row for (u, r) exists. -/
def hasBookmark (s : List Bookmark) (u r : Nat) : Bool :=
  (s.find? (bmMatches u r)).isSome

/-- Projection of the bookmark table to its (user, reef) pairs. -/
def bookmarkPairs (s : List Bookmark) : List (Nat × Nat) :=
  s.map (fun b => (b.user, b.reef))

/-- Schema invariant from ReefBookmark.Meta unique_together ["user", "reef"]. -/
def BookmarkUnique (s : List Bookmark) : Prop :=
  ∀ u r, pairCount s u r ≤ 1

/-- Fold of toggle operations over the bookmark table. -/
def toggleFold (s : List Bookmark) (ops : List (Nat × Nat)) : List Bookmark :=
  ops.foldl (fun st op => (toggleBookmark st op.1 op.2).1) s

/-! ### Bookmark lemmas -/

theorem countP_eraseP_succ {α : Type} {p : α → Bool} {s : List α}
    (h : ∃ a ∈ s, p a) : (s.eraseP p).countP p + 1 = s.countP p := by
  induction s with
  | nil => simp at h
  | cons a t ih =>
    by_cases hpa : p a
    · simp [List.eraseP_cons, hpa]
    · obtain ⟨b, hb, hpb⟩ := h
      rcases List.mem_cons.mp hb with rfl | hbt
      · exact absurd hpb hpa
      · have hfa : p a = false := by simpa using hpa
        simpa [List.eraseP_cons, hfa] using ih ⟨b, hbt, hpb⟩

theorem bmMatches_eq {u r : Nat} {b : Bookmark} (h : bmMatches u r b = true) :
    b.user = u ∧ b.reef = r := by
  simpa [bmMatches] using h

theorem pairs_eraseP_append_perm {s : List Bookmark} {u r : Nat} {b : Bookmark}
    (hb : s.find? (bmMatches u r) = some b) :
    List.Perm (bookmarkPairs (s.eraseP (bmMatches u r)) ++ [(u, r)])
      (bookmarkPairs s) := by
  induction s with
  | nil => simp at hb
  | cons a t ih =>
    by_cases hpa : bmMatches u r a
    · obtain ⟨hu, hr⟩ := bmMatches_eq hpa
      simp only [List.eraseP_cons, hpa, if_pos, ite_true, bookmarkPairs,
        List.map_cons, hu, hr]
      exact List.perm_append_singleton _ _
    · rw [List.find?_cons_of_neg _ hpa] at hb
      simp only [List.eraseP_cons, hpa, Bool.false_eq_true, if_neg, ite_false,
        bookmarkPairs, List.map_cons, List.cons_append]
      exact (ih hb).cons _

/-- C1 helper: the state reached by one toggle, by cases on presence. -/
theorem toggleBookmark_of_found {s : List Bookmark} {u r : Nat} {b : Bookmark}
    (hb : s.find? (bmMatches u r) = some b) :
    toggleBookmark s u r = (s.eraseP (bmMatches u r), false) := by
  simp [toggleBookmark, get_or_create, hb]

theorem toggleBookmark_of_absent {s : List Bookmark} {u r : Nat}
    (hb : s.find? (bmMatches u r) = none) :
    toggleBookmark s u r = (s ++ [⟨u, r, ""⟩], true) := by
  simp [toggleBookmark, get_or_create, hb]

theorem pairCount_eq_zero_of_none {s : List Bookmark} {u r : Nat}
    (h : s.find? (bmMatches u r) = none) : pairCount s u r = 0 := by
  rw [pairCount, List.countP_eq_zero]
  exact List.find?_eq_none.mp h

/-- C1: the toggle deletes the (u, r) bookmark and reports false when one
exists, creates exactly one and reports true when none exists, and a double
toggle restores the original set of (user, reef) bookmark pairs. -/
theorem bookmark_toggle_correct (s : List Bookmark) (u r : Nat)
    (hinv : BookmarkUnique s) :
    (hasBookmark s u r = true →
      (toggleBookmark s u r).2 = false ∧
      pairCount (toggleBookmark s u r).1 u r = 0 ∧
      (toggleBookmark s u r).1.length + 1 = s.length) ∧
    (hasBookmark s u r = false →
      (toggleBookmark s u r).2 = true ∧
      pairCount (toggleBookmark s u r).1 u r = 1 ∧
      (toggleBookmark s u r).1.length = s.length + 1) ∧
    List.Perm (bookmarkPairs (toggleBookmark (toggleBookmark s u r).1 u r).1)
      (bookmarkPairs s) := by
  refine ⟨?_, ?_, ?_⟩
  · intro hhas
    obtain ⟨b, hb⟩ := Option.isSome_iff_exists.mp hhas
    rw [toggleBookmark_of_found hb]
    have hmem : ∃ a ∈ s, bmMatches u r a = true :=
      ⟨b, List.mem_of_find?_eq_some hb, List.find?_some hb⟩
    refine ⟨rfl, ?_, ?_⟩
    · have h1 := countP_eraseP_succ hmem
      have h2 := hinv u r
      simp only [pairCount] at h2 ⊢
      omega
    · obtain ⟨a, ha, hpa⟩ := hmem
      exact List.length_eraseP_add_one ha hpa
  · intro hhas
    have hb : s.find? (bmMatches u r) = none := by
      rcases hfs : s.find? (bmMatches u r) with _ | b
      · rfl
      · rw [hasBookmark, hfs] at hhas
        simp at hhas
    rw [toggleBookmark_of_absent hb]
    refine ⟨rfl, ?_, by simp⟩
    have h0 := pairCount_eq_zero_of_none hb
    simp only [pairCount, List.countP_append] at h0 ⊢
    rw [h0]
    simp [bmMatches]
  · rcases hfind : s.find? (bmMatches u r) with _ | b
    · rw [toggleBookmark_of_absent hfind]
      have hfind2 : (s ++ [(⟨u, r, ""⟩ : Bookmark)]).find? (bmMatches u r) =
          some ⟨u, r, ""⟩ := by
        rw [List.find?_append, hfind]
        simp [bmMatches]
      rw [toggleBookmark_of_found hfind2]
      rw [List.eraseP_append_right _ (List.find?_eq_none.mp hfind)]
      simp [bmMatches]
    · rw [toggleBookmark_of_found hfind]
      have hzero : pairCount (s.eraseP (bmMatches u r)) u r = 0 := by
        have h1 := countP_eraseP_succ
          ⟨b, List.mem_of_find?_eq_some hfind, List.find?_some hfind⟩
        have h2 := hinv u r
        simp only [pairCount] at h2 ⊢
        omega
      have hnone : (s.eraseP (bmMatches u r)).find? (bmMatches u r) = none := by
        rw [List.find?_eq_none]
        rw [pairCount, List.countP_eq_zero] at hzero
        exact hzero
      rw [toggleBookmark_of_absent hnone]
      have := pairs_eraseP_append_perm hfind
      simpa [bookmarkPairs] using this

theorem bookmarkUnique_singleton (b : Bookmark) : BookmarkUnique [b] := by
  intro u r
  rw [pairCount, List.countP_cons]
  simp only [List.countP_nil]
  split <;> omega

/-- Witness for bookmark_toggle_correct at a concrete store. -/
theorem bookmark_toggle_correct_witness :
    hasBookmark [(⟨7, 1, ""⟩ : Bookmark)] 7 1 = true ∧
    ((toggleBookmark [(⟨7, 1, ""⟩ : Bookmark)] 7 1).2 = false ∧
      pairCount (toggleBookmark [(⟨7, 1, ""⟩ : Bookmark)] 7 1).1 7 1 = 0 ∧
      (toggleBookmark [(⟨7, 1, ""⟩ : Bookmark)] 7 1).1.length + 1 =
        ([(⟨7, 1, ""⟩ : Bookmark)] : List Bookmark).length) :=
  ⟨by decide,
    (bookmark_toggle_correct [⟨7, 1, ""⟩] 7 1
      (bookmarkUnique_singleton _)).1 (by decide)⟩

theorem toggle_preserves_unique (s : List Bookmark) (u r : Nat)
    (hinv : BookmarkUnique s) : BookmarkUnique (toggleBookmark s u r).1 := by
  rcases hfind : s.find? (bmMatches u r) with _ | b
  · rw [toggleBookmark_of_absent hfind]
    intro u' r'
    simp only [pairCount, List.countP_append]
    by_cases hm : bmMatches u' r' (⟨u, r, ""⟩ : Bookmark) = true
    · obtain ⟨hu, hr⟩ := bmMatches_eq hm
      simp only at hu hr
      subst hu hr
      have h0 := pairCount_eq_zero_of_none hfind
      rw [pairCount] at h0
      rw [h0]
      simp [bmMatches]
    · have : List.countP (bmMatches u' r') [(⟨u, r, ""⟩ : Bookmark)] = 0 := by
        rw [List.countP_eq_zero]
        intro a ha
        rw [List.mem_singleton] at ha
        subst ha
        exact hm
      rw [this]
      simpa using hinv u' r'
  · rw [toggleBookmark_of_found hfind]
    intro u' r'
    exact le_trans ((List.eraseP_sublist s).countP_le _) (hinv u' r')

/-- C2: no sequence of toggles breaks the at-most-one-bookmark-per-pair
invariant declared by the schema (unique_together ["user", "reef"]). -/
theorem bookmark_unique_preserved (s : List Bookmark)
    (ops : List (Nat × Nat)) (hinv : BookmarkUnique s) :
    BookmarkUnique (toggleFold s ops) := by
  induction ops generalizing s with
  | nil => exact hinv
  | cons op t ih => exact ih _ (toggle_preserves_unique s op.1 op.2 hinv)

theorem bookmarkUnique_nil : BookmarkUnique [] := by
  intro u r
  simp [pairCount]

/-- Witness for bookmark_unique_preserved on a concrete toggle sequence. -/
theorem bookmark_unique_preserved_witness :
    BookmarkUnique ([] : List Bookmark) ∧
    BookmarkUnique (toggleFold [] [(7, 1), (7, 1), (2, 5), (7, 1)]) :=
  ⟨bookmarkUnique_nil,
    bookmark_unique_preserved [] [(7, 1), (7, 1), (2, 5), (7, 1)]
      bookmarkUnique_nil⟩

/-- C3: unauthenticated toggle requests change nothing and get the
401 error JSON; authenticated requests on an existing reef get the
bookmarked/message JSON of the toggled state. -/
theorem bookmark_toggle_endpoint_spec (reefs : List Reef)
    (s : List Bookmark) (user : Option Nat) (reef_id : Nat) :
    (user = none →
      bookmark_toggle reefs s user reef_id =
        (s, ToggleResponse.err "Authentication required" 401)) ∧
    (∀ u rf, user = some u →
      reefs.find? (fun x => x.id == reef_id) = some rf →
      bookmark_toggle reefs s user reef_id =
        ((toggleBookmark s u reef_id).1,
          ToggleResponse.json (toggleBookmark s u reef_id).2
            (if (toggleBookmark s u reef_id).2
              then "Added " ++ rf.name ++ " to bookmarks"
              else "Removed " ++ rf.name ++ " from bookmarks"))) := by
  constructor
  · rintro rfl
    rfl
  · rintro u rf rfl hfind
    simp [bookmark_toggle, hfind]

/-- A concrete reef row used by witnesses. -/
def reefA : Reef :=
  ⟨1, "Coral Bay", "pacific", "Fiji", 10, 20, "A reef", 5, 12, "good",
    100, none⟩

/-- Witness for bookmark_toggle_endpoint_spec on concrete requests. -/
theorem bookmark_toggle_endpoint_witness :
    bookmark_toggle [reefA] [] none 1 =
      ([], ToggleResponse.err "Authentication required" 401) ∧
    bookmark_toggle [reefA] [] (some 7) 1 =
      ([⟨7, 1, ""⟩], ToggleResponse.json true "Added Coral Bay to bookmarks") := by
  constructor
  · exact (bookmark_toggle_endpoint_spec [reefA] [] none 1).1 rfl
  · have h := (bookmark_toggle_endpoint_spec [reefA] [] (some 7) 1).2 7 reefA
      rfl (by decide)
    rw [h]
    decide

/-! ### Recently viewed reefs (views.py ReefDetailView.get_context_data,
lines 163-173) -/

/-- One reef-detail view: remove the id if present (list.remove removes
the first occurrence), push it to the front, keep the last 10. -/
def visitReef (viewed_reefs : List Nat) (reef_id : Nat) : List Nat :=
  let l := if reef_id ∈ viewed_reefs then viewed_reefs.erase reef_id
    else viewed_reefs
  (reef_id :: l).take 10

/-- The session list after a sequence of reef-detail views, starting from
a fresh session (the view initializes the key to []). -/
def viewedAfter (views : List Nat) : List Nat :=
  views.foldl visitReef []

theorem visitReef_nodup {l : List Nat} (h : l.Nodup) (rid : Nat) :
    (visitReef l rid).Nodup := by
  have hcons : (rid :: (if rid ∈ l then l.erase rid else l)).Nodup := by
    split
    · exact List.nodup_cons.mpr ⟨fun hm => (h.mem_erase_iff.mp hm).1 rfl,
        h.erase rid⟩
    · exact List.nodup_cons.mpr (by exact ⟨by assumption, h⟩)
  exact hcons.sublist (List.take_sublist 10 _)

theorem visitReef_length_le (l : List Nat) (rid : Nat) :
    (visitReef l rid).length ≤ 10 := by
  rw [visitReef, List.length_take]
  exact Nat.min_le_left _ _

/-- C4: the session's recently-viewed list holds at most 10 distinct reef
ids, newest first: a re-viewed reef moves to the front, a new one is
prepended and the list truncated to 10, and the view sequence
R1, R2, R1, R3 yields [R3, R1, R2]. -/
theorem recently_viewed_spec :
    (∀ views : List Nat,
      (viewedAfter views).Nodup ∧ (viewedAfter views).length ≤ 10) ∧
    (∀ (l : List Nat) (rid : Nat), (visitReef l rid).head? = some rid) ∧
    (∀ (l : List Nat) (rid : Nat), rid ∈ l →
      visitReef l rid = (rid :: l.erase rid).take 10) ∧
    (∀ (l : List Nat) (rid : Nat), rid ∉ l →
      visitReef l rid = (rid :: l).take 10) ∧
    viewedAfter [1, 2, 1, 3] = [3, 1, 2] := by
  refine ⟨?_, ?_, ?_, ?_, by decide⟩
  · have key : ∀ (views l : List Nat), l.Nodup →
        (views.foldl visitReef l).Nodup ∧ (views.foldl visitReef l).length ≤ 10
          ∨ views = [] ∧ views.foldl visitReef l = l := by
      intro views
      induction views with
      | nil => intro l h; exact Or.inr ⟨rfl, rfl⟩
      | cons v t ih =>
        intro l h
        rcases ih (visitReef l v) (visitReef_nodup h v) with h1 | ⟨ht, h2⟩
        · exact Or.inl (by simpa using h1)
        · refine Or.inl ?_
          subst ht
          simp only [List.foldl_cons, List.foldl_nil]
          exact ⟨visitReef_nodup h v, visitReef_length_le l v⟩
    intro views
    rcases key views [] List.nodup_nil with h | ⟨_, h⟩
    · exact h
    · rw [viewedAfter, h]
      exact ⟨List.nodup_nil, by simp⟩
  · intro l rid
    rw [visitReef]
    rfl
  · intro l rid h
    rw [visitReef, if_pos h]
  · intro l rid h
    rw [visitReef, if_neg h]

/-- Witness for recently_viewed_spec on the concrete view sequence. -/
theorem recently_viewed_witness :
    viewedAfter [1, 2, 1, 3] = [3, 1, 2] ∧
    (viewedAfter [1, 2, 1, 3]).Nodup ∧
    (viewedAfter [1, 2, 1, 3]).length ≤ 10 ∧
    (1 : Nat) ∈ [1, 2] ∧ visitReef [1, 2] 1 = [1, 2] :=
  ⟨recently_viewed_spec.2.2.2.2,
    (recently_viewed_spec.1 [1, 2, 1, 3]).1,
    (recently_viewed_spec.1 [1, 2, 1, 3]).2,
    by decide,
    by rw [recently_viewed_spec.2.2.1 [1, 2] 1 (by decide)]; decide⟩

/-! ### Reef listing (views.py ReefListView.get_queryset, lines 92-126) -/

/-- GET parameters of the reef listing; sort = none models an absent
sort parameter (request.GET.get defaults apply in the queryset). -/
structure ReefParams where
  search : String
  region : String
  health : String
  sort : Option String

/-- The sort allow-list of the reef listing (views.py line 116). -/
def reefAllowedSorts : List String :=
  ["name", "-name", "area_km2", "-area_km2", "health_status",
    "-health_status", "created_at", "-created_at"]

/-- queryset.order_by(sort) for the reef columns. -/
def reefOrderBy : String → List Reef → List Reef
  | "name", l => List.insertionSort (keyLe Reef.name) l
  | "-name", l => List.insertionSort (keyGe Reef.name) l
  | "area_km2", l => List.insertionSort (keyLe Reef.area_km2) l
  | "-area_km2", l => List.insertionSort (keyGe Reef.area_km2) l
  | "health_status", l => List.insertionSort (keyLe Reef.health_status) l
  | "-health_status", l => List.insertionSort (keyGe Reef.health_status) l
  | "created_at", l => List.insertionSort (keyLe Reef.created_at) l
  | "-created_at", l => List.insertionSort (keyGe Reef.created_at) l
  | _, l => l

/-- The order realized by each allow-listed reef sort key. -/
def reefSortRel : String → Reef → Reef → Prop
  | "name" => keyLe Reef.name
  | "-name" => keyGe Reef.name
  | "area_km2" => keyLe Reef.area_km2
  | "-area_km2" => keyGe Reef.area_km2
  | "health_status" => keyLe Reef.health_status
  | "-health_status" => keyGe Reef.health_status
  | "created_at" => keyLe Reef.created_at
  | _ => keyGe Reef.created_at

/-- The OR-combined icontains search over name, country, description. -/
def reefSearchMatches (q : String) (r : Reef) : Bool :=
  icontains r.name q || icontains r.country q || icontains r.description q

/-- The reef queryset before the sort step: base queryset in the model
Meta ordering ["-created_at"], then the search / region / health filters,
each applied only when the parameter is non-empty. -/
def reefFilterResults (p : ReefParams) (db : List Reef) : List Reef :=
  let q0 := List.insertionSort (keyGe Reef.created_at) db
  let q1 := if p.search ≠ "" then q0.filter (reefSearchMatches p.search)
    else q0
  let q2 := if p.region ≠ "" then q1.filter (fun r => r.region == p.region)
    else q1
  if p.health ≠ "" then q2.filter (fun r => r.health_status == p.health)
  else q2

/-- ReefListView.get_queryset: filters, then order_by when the sort
parameter (default "-created_at") is allow-listed. -/
def reefGetQueryset (p : ReefParams) (db : List Reef) : List Reef :=
  let sort := p.sort.getD "-created_at"
  let q := reefFilterResults p db
  if sort ∈ reefAllowedSorts then reefOrderBy sort q else q

/-! ### Event listing (views.py EventListView.get_queryset, lines 239-267) -/

/-- GET parameters of the event listing. year = none models an absent or
empty year parameter. -/
structure EventParams where
  event_type : String
  severity : String
  year : Option Nat
  resolved : String
  sort : Option String

/-- The sort allow-list of the event listing (views.py line 264). -/
def eventAllowedSorts : List String :=
  ["event_date", "-event_date", "severity", "-severity", "created_at",
    "-created_at"]

/-- The Event model Meta ordering key ["-event_date", "-created_at"]:
descending lexicographic on (event_date, created_at). -/
def eventMetaKey (e : EventRec) : Lex (Nat × Nat) :=
  toLex (e.event_date, e.created_at)

/-- queryset.order_by(sort) for the event columns. -/
def eventOrderBy : String → List EventRec → List EventRec
  | "event_date", l => List.insertionSort (keyLe EventRec.event_date) l
  | "-event_date", l => List.insertionSort (keyGe EventRec.event_date) l
  | "severity", l => List.insertionSort (keyLe EventRec.severity) l
  | "-severity", l => List.insertionSort (keyGe EventRec.severity) l
  | "created_at", l => List.insertionSort (keyLe EventRec.created_at) l
  | "-created_at", l => List.insertionSort (keyGe EventRec.created_at) l
  | _, l => l

/-- The order realized by each allow-listed event sort key. -/
def eventSortRel : String → EventRec → EventRec → Prop
  | "event_date" => keyLe EventRec.event_date
  | "-event_date" => keyGe EventRec.event_date
  | "severity" => keyLe EventRec.severity
  | "-severity" => keyGe EventRec.severity
  | "created_at" => keyLe EventRec.created_at
  | _ => keyGe EventRec.created_at

/-- The event queryset before the sort step: Meta ordering, then the
event_type / severity / year / resolved filters. -/
def eventFilterResults (p : EventParams) (db : List EventRec) :
    List EventRec :=
  let q0 := List.insertionSort (keyGe eventMetaKey) db
  let q1 := if p.event_type ≠ "" then
      q0.filter (fun e => e.event_type == p.event_type)
    else q0
  let q2 := if p.severity ≠ "" then
      q1.filter (fun e => e.severity == p.severity)
    else q1
  let q3 := match p.year with
    | some y => q2.filter (fun e => dateYear e.event_date == y)
    | none => q2
  if p.resolved ∈ (["true", "false"] : List String) then
    q3.filter (fun e => e.resolved == (p.resolved == "true"))
  else q3

/-- EventListView.get_queryset: filters, then order_by when the sort
parameter (default "-event_date") is allow-listed. -/
def eventGetQueryset (p : EventParams) (db : List EventRec) :
    List EventRec :=
  let sort := p.sort.getD "-event_date"
  let q := eventFilterResults p db
  if sort ∈ eventAllowedSorts then eventOrderBy sort q else q

/-! ### Article listing and detail (views.py ArticleListView lines 186-208,
ArticleDetailView lines 227-228) -/

/-- GET parameters of the article listing. -/
structure ArticleParams where
  search : String
  category : String
  sort : Option String

/-- The sort allow-list of the article listing (views.py line 205). -/
def articleAllowedSorts : List String :=
  ["title", "-title", "created_at", "-created_at"]

/-- queryset.order_by(sort) for the article columns. -/
def articleOrderBy : String → List Article → List Article
  | "title", l => List.insertionSort (keyLe Article.title) l
  | "-title", l => List.insertionSort (keyGe Article.title) l
  | "created_at", l => List.insertionSort (keyLe Article.created_at) l
  | "-created_at", l => List.insertionSort (keyGe Article.created_at) l
  | _, l => l

/-- The order realized by each allow-listed article sort key. -/
def articleSortRel : String → Article → Article → Prop
  | "title" => keyLe Article.title
  | "-title" => keyGe Article.title
  | "created_at" => keyLe Article.created_at
  | _ => keyGe Article.created_at

/-- Article.objects.filter(published=True) in Meta ordering. -/
def articlePublishedQs (db : List Article) : List Article :=
  (List.insertionSort (keyGe Article.created_at) db).filter
    (fun a => a.published)

/-- The article queryset before the sort step: published only, then the
search / category filters. -/
def articleFilterResults (p : ArticleParams) (db : List Article) :
    List Article :=
  let q0 := articlePublishedQs db
  let q1 := if p.search ≠ "" then
      q0.filter (fun a => icontains a.title p.search ||
        icontains a.content p.search || icontains a.excerpt p.search)
    else q0
  if p.category ≠ "" then q1.filter (fun a => a.category == p.category)
  else q1

/-- ArticleListView.get_queryset: published filter, search/category
filters, then order_by when the sort parameter is allow-listed. -/
def articleGetQueryset (p : ArticleParams) (db : List Article) :
    List Article :=
  let sort := p.sort.getD "-created_at"
  let q := articleFilterResults p db
  if sort ∈ articleAllowedSorts then articleOrderBy sort q else q

/-- ArticleDetailView object lookup: get_object_or_404 over the
published-only queryset, by primary key. -/
def articleDetailObject (db : List Article) (pk : Nat) : Option Article :=
  (articlePublishedQs db).find? (fun a => a.id == pk)

/-! ### Sorting lemmas -/

theorem sorted_filter_ite {α : Type} {r : α → α → Prop} {l : List α}
    (c : Prop) [Decidable c] (f : α → Bool) (h : List.Sorted r l) :
    List.Sorted r (if c then l.filter f else l) := by
  split
  · exact List.Pairwise.filter f h
  · exact h

theorem reefFilterResults_sorted (p : ReefParams) (db : List Reef) :
    List.Sorted (keyGe Reef.created_at) (reefFilterResults p db) :=
  sorted_filter_ite _ _ (sorted_filter_ite _ _ (sorted_filter_ite _ _
    (List.sorted_insertionSort _ db)))

theorem eventFilterResults_sorted (p : EventParams) (db : List EventRec) :
    List.Sorted (keyGe eventMetaKey) (eventFilterResults p db) := by
  have h0 : List.Sorted (keyGe eventMetaKey)
      (List.insertionSort (keyGe eventMetaKey) db) :=
    List.sorted_insertionSort _ db
  rw [eventFilterResults]
  rcases p.year with _ | y
  · exact sorted_filter_ite _ _ (sorted_filter_ite _ _
      (sorted_filter_ite _ _ h0))
  · exact sorted_filter_ite _ _ ((sorted_filter_ite _ _
      (sorted_filter_ite _ _ h0)).filter _)

theorem articleFilterResults_sorted (p : ArticleParams)
    (db : List Article) :
    List.Sorted (keyGe Article.created_at) (articleFilterResults p db) :=
  sorted_filter_ite _ _ (sorted_filter_ite _ _
    (List.Pairwise.filter _ (List.sorted_insertionSort _ db)))

theorem reefOrderBy_sorted {s : String} (hs : s ∈ reefAllowedSorts)
    (l : List Reef) : List.Sorted (reefSortRel s) (reefOrderBy s l) := by
  simp only [reefAllowedSorts, List.mem_cons, List.not_mem_nil,
    or_false] at hs
  rcases hs with rfl | rfl | rfl | rfl | rfl | rfl | rfl | rfl
  · exact List.sorted_insertionSort (keyLe Reef.name) l
  · exact List.sorted_insertionSort (keyGe Reef.name) l
  · exact List.sorted_insertionSort (keyLe Reef.area_km2) l
  · exact List.sorted_insertionSort (keyGe Reef.area_km2) l
  · exact List.sorted_insertionSort (keyLe Reef.health_status) l
  · exact List.sorted_insertionSort (keyGe Reef.health_status) l
  · exact List.sorted_insertionSort (keyLe Reef.created_at) l
  · exact List.sorted_insertionSort (keyGe Reef.created_at) l

theorem eventOrderBy_sorted {s : String} (hs : s ∈ eventAllowedSorts)
    (l : List EventRec) :
    List.Sorted (eventSortRel s) (eventOrderBy s l) := by
  simp only [eventAllowedSorts, List.mem_cons, List.not_mem_nil,
    or_false] at hs
  rcases hs with rfl | rfl | rfl | rfl | rfl | rfl
  · exact List.sorted_insertionSort (keyLe EventRec.event_date) l
  · exact List.sorted_insertionSort (keyGe EventRec.event_date) l
  · exact List.sorted_insertionSort (keyLe EventRec.severity) l
  · exact List.sorted_insertionSort (keyGe EventRec.severity) l
  · exact List.sorted_insertionSort (keyLe EventRec.created_at) l
  · exact List.sorted_insertionSort (keyGe EventRec.created_at) l

theorem articleOrderBy_sorted {s : String} (hs : s ∈ articleAllowedSorts)
    (l : List Article) :
    List.Sorted (articleSortRel s) (articleOrderBy s l) := by
  simp only [articleAllowedSorts, List.mem_cons, List.not_mem_nil,
    or_false] at hs
  rcases hs with rfl | rfl | rfl | rfl
  · exact List.sorted_insertionSort (keyLe Article.title) l
  · exact List.sorted_insertionSort (keyGe Article.title) l
  · exact List.sorted_insertionSort (keyLe Article.created_at) l
  · exact List.sorted_insertionSort (keyGe Article.created_at) l

theorem reefOrderBy_perm (s : String) (l : List Reef) :
    List.Perm (reefOrderBy s l) l := by
  unfold reefOrderBy
  split <;> first
    | exact List.perm_insertionSort _ _
    | exact List.Perm.refl _

theorem eventOrderBy_perm (s : String) (l : List EventRec) :
    List.Perm (eventOrderBy s l) l := by
  unfold eventOrderBy
  split <;> first
    | exact List.perm_insertionSort _ _
    | exact List.Perm.refl _

theorem articleOrderBy_perm (s : String) (l : List Article) :
    List.Perm (articleOrderBy s l) l := by
  unfold articleOrderBy
  split <;> first
    | exact List.perm_insertionSort _ _
    | exact List.Perm.refl _

/-- Descending lexicographic Meta order refines descending event_date. -/
theorem eventMetaKey_ge_event_date {e1 e2 : EventRec}
    (h : keyGe eventMetaKey e1 e2) : keyGe EventRec.event_date e1 e2 := by
  rcases (Prod.Lex.le_iff _ _).mp h with h1 | ⟨h1, _⟩
  · exact le_of_lt h1
  · exact le_of_eq h1

/-- C5: a sort parameter in a listing's allow-list orders the results by
that key; an absent or unrecognized sort parameter leaves the results in
the listing's default order, and never errors (the queryset is always a
permutation of the filtered results). -/
theorem sort_allowlist_spec (rp : ReefParams) (rdb : List Reef)
    (ep : EventParams) (edb : List EventRec)
    (ap : ArticleParams) (adb : List Article) :
    ((rp.sort.getD "-created_at") ∈ reefAllowedSorts →
      List.Sorted (reefSortRel (rp.sort.getD "-created_at"))
        (reefGetQueryset rp rdb) ∧
      List.Perm (reefGetQueryset rp rdb) (reefFilterResults rp rdb)) ∧
    ((rp.sort.getD "-created_at") ∉ reefAllowedSorts →
      reefGetQueryset rp rdb = reefFilterResults rp rdb ∧
      List.Sorted (keyGe Reef.created_at) (reefGetQueryset rp rdb)) ∧
    (rp.sort = none →
      List.Sorted (keyGe Reef.created_at) (reefGetQueryset rp rdb)) ∧
    ((ep.sort.getD "-event_date") ∈ eventAllowedSorts →
      List.Sorted (eventSortRel (ep.sort.getD "-event_date"))
        (eventGetQueryset ep edb) ∧
      List.Perm (eventGetQueryset ep edb) (eventFilterResults ep edb)) ∧
    ((ep.sort.getD "-event_date") ∉ eventAllowedSorts →
      eventGetQueryset ep edb = eventFilterResults ep edb ∧
      List.Sorted (keyGe EventRec.event_date) (eventGetQueryset ep edb)) ∧
    (ep.sort = none →
      List.Sorted (keyGe EventRec.event_date) (eventGetQueryset ep edb)) ∧
    ((ap.sort.getD "-created_at") ∈ articleAllowedSorts →
      List.Sorted (articleSortRel (ap.sort.getD "-created_at"))
        (articleGetQueryset ap adb) ∧
      List.Perm (articleGetQueryset ap adb)
        (articleFilterResults ap adb)) ∧
    ((ap.sort.getD "-created_at") ∉ articleAllowedSorts →
      articleGetQueryset ap adb = articleFilterResults ap adb ∧
      List.Sorted (keyGe Article.created_at)
        (articleGetQueryset ap adb)) ∧
    (ap.sort = none →
      List.Sorted (keyGe Article.created_at)
        (articleGetQueryset ap adb)) := by
  have hreef : ∀ h : (rp.sort.getD "-created_at") ∈ reefAllowedSorts,
      reefGetQueryset rp rdb =
        reefOrderBy (rp.sort.getD "-created_at")
          (reefFilterResults rp rdb) := by
    intro h
    rw [reefGetQueryset, if_pos h]
  have hreefn : ∀ _ : (rp.sort.getD "-created_at") ∉ reefAllowedSorts,
      reefGetQueryset rp rdb = reefFilterResults rp rdb := by
    intro h
    rw [reefGetQueryset, if_neg h]
  have hev : ∀ h : (ep.sort.getD "-event_date") ∈ eventAllowedSorts,
      eventGetQueryset ep edb =
        eventOrderBy (ep.sort.getD "-event_date")
          (eventFilterResults ep edb) := by
    intro h
    rw [eventGetQueryset, if_pos h]
  have hevn : ∀ _ : (ep.sort.getD "-event_date") ∉ eventAllowedSorts,
      eventGetQueryset ep edb = eventFilterResults ep edb := by
    intro h
    rw [eventGetQueryset, if_neg h]
  have hart : ∀ h : (ap.sort.getD "-created_at") ∈ articleAllowedSorts,
      articleGetQueryset ap adb =
        articleOrderBy (ap.sort.getD "-created_at")
          (articleFilterResults ap adb) := by
    intro h
    rw [articleGetQueryset, if_pos h]
  have hartn : ∀ _ : (ap.sort.getD "-created_at") ∉ articleAllowedSorts,
      articleGetQueryset ap adb = articleFilterResults ap adb := by
    intro h
    rw [articleGetQueryset, if_neg h]
  refine ⟨?_, ?_, ?_, ?_, ?_, ?_, ?_, ?_, ?_⟩
  · intro h
    rw [hreef h]
    exact ⟨reefOrderBy_sorted h _, reefOrderBy_perm _ _⟩
  · intro h
    rw [hreefn h]
    exact ⟨rfl, reefFilterResults_sorted rp rdb⟩
  · intro h
    have hmem : (rp.sort.getD "-created_at") ∈ reefAllowedSorts := by
      rw [h]
      decide
    rw [hreef hmem]
    have := reefOrderBy_sorted hmem (reefFilterResults rp rdb)
    rw [h] at this ⊢
    exact this
  · intro h
    rw [hev h]
    exact ⟨eventOrderBy_sorted h _, eventOrderBy_perm _ _⟩
  · intro h
    rw [hevn h]
    refine ⟨rfl, ?_⟩
    exact List.Pairwise.imp (fun h => eventMetaKey_ge_event_date h)
      (eventFilterResults_sorted ep edb)
  · intro h
    have hmem : (ep.sort.getD "-event_date") ∈ eventAllowedSorts := by
      rw [h]
      decide
    rw [hev hmem]
    have := eventOrderBy_sorted hmem (eventFilterResults ep edb)
    rw [h] at this ⊢
    exact this
  · intro h
    rw [hart h]
    exact ⟨articleOrderBy_sorted h _, articleOrderBy_perm _ _⟩
  · intro h
    rw [hartn h]
    exact ⟨rfl, articleFilterResults_sorted ap adb⟩
  · intro h
    have hmem : (ap.sort.getD "-created_at") ∈ articleAllowedSorts := by
      rw [h]
      decide
    rw [hart hmem]
    have := articleOrderBy_sorted hmem (articleFilterResults ap adb)
    rw [h] at this ⊢
    exact this

/-- Witness for sort_allowlist_spec: an allow-listed reef sort, an absent
event sort, and an unrecognized article sort. -/
theorem sort_allowlist_witness :
    ("name" ∈ reefAllowedSorts) ∧
    List.Sorted (reefSortRel "name")
      (reefGetQueryset ⟨"", "", "", some "name"⟩ [reefA]) ∧
    List.Sorted (keyGe EventRec.event_date)
      (eventGetQueryset ⟨"", "", none, "", none⟩ []) ∧
    ("bogus" ∉ articleAllowedSorts) ∧
    articleGetQueryset ⟨"", "", some "bogus"⟩ [] =
      articleFilterResults ⟨"", "", some "bogus"⟩ [] := by
  have h := sort_allowlist_spec ⟨"", "", "", some "name"⟩ [reefA]
    ⟨"", "", none, "", none⟩ [] ⟨"", "", some "bogus"⟩ []
  exact ⟨by decide, (h.1 (by decide)).1, h.2.2.2.2.2.1 rfl, by decide,
    (h.2.2.2.2.2.2.2.1 (by decide)).1⟩

/-! ### Reef filter semantics (claim C8) -/

theorem mem_reefOrderBy (s : String) (l : List Reef) (r : Reef) :
    r ∈ reefOrderBy s l ↔ r ∈ l := by
  unfold reefOrderBy
  split <;> simp

theorem mem_reefFilterResults (p : ReefParams) (db : List Reef)
    (r : Reef) :
    r ∈ reefFilterResults p db ↔
      r ∈ db ∧ (p.search = "" ∨ reefSearchMatches p.search r = true) ∧
        (p.region = "" ∨ r.region = p.region) ∧
        (p.health = "" ∨ r.health_status = p.health) := by
  rw [reefFilterResults]
  by_cases h1 : p.search = "" <;> by_cases h2 : p.region = "" <;>
    by_cases h3 : p.health = "" <;>
    simp [h1, h2, h3, List.mem_filter] <;> tauto

/-- C8: the reef listing's region and health filters are exact-match and
conjunctive, and the search filter keeps exactly the reefs whose name,
country, or description contains the query case-insensitively. -/
theorem reef_filters_spec (p : ReefParams) (db : List Reef) :
    (∀ r, r ∈ reefGetQueryset p db ↔
      r ∈ db ∧ (p.search = "" ∨ reefSearchMatches p.search r = true) ∧
        (p.region = "" ∨ r.region = p.region) ∧
        (p.health = "" ∨ r.health_status = p.health)) ∧
    (p.region ≠ "" → p.health ≠ "" → ∀ r, r ∈ reefGetQueryset p db →
      r.region = p.region ∧ r.health_status = p.health) := by
  have hm : ∀ r, r ∈ reefGetQueryset p db ↔
      r ∈ reefFilterResults p db := by
    intro r
    simp only [reefGetQueryset]
    split
    · exact mem_reefOrderBy _ _ r
    · exact Iff.rfl
  have hiff : ∀ r, r ∈ reefGetQueryset p db ↔
      r ∈ db ∧ (p.search = "" ∨ reefSearchMatches p.search r = true) ∧
        (p.region = "" ∨ r.region = p.region) ∧
        (p.health = "" ∨ r.health_status = p.health) := by
    intro r
    rw [hm r, mem_reefFilterResults]
  refine ⟨hiff, ?_⟩
  intro hr hh r hmem
  obtain ⟨_, _, h2, h3⟩ := (hiff r).mp hmem
  exact ⟨h2.resolve_left hr, h3.resolve_left hh⟩

/-- Witness for reef_filters_spec on a concrete filtered request. -/
theorem reef_filters_witness :
    reefA ∈ reefGetQueryset ⟨"", "pacific", "good", none⟩ [reefA] ∧
    reefA.region = "pacific" ∧ reefA.health_status = "good" :=
  ⟨by decide,
    (reef_filters_spec ⟨"", "pacific", "good", none⟩ [reefA]).2
      (by decide) (by decide) reefA (by decide)⟩

/-! ### Published-articles invariant (claim C10) -/

theorem mem_articlePublishedQs {db : List Article} {a : Article} :
    a ∈ articlePublishedQs db ↔ a ∈ db ∧ a.published = true := by
  simp [articlePublishedQs, List.mem_filter]

theorem filter_ite_sublist {α : Type} (c : Prop) [Decidable c]
    (f : α → Bool) (l : List α) :
    List.Sublist (if c then l.filter f else l) l := by
  split
  · exact List.filter_sublist l
  · exact List.Sublist.refl l

theorem articleFilterResults_sublist (p : ArticleParams)
    (db : List Article) :
    List.Sublist (articleFilterResults p db) (articlePublishedQs db) := by
  rw [articleFilterResults]
  exact List.Sublist.trans (filter_ite_sublist _ _ _)
    (filter_ite_sublist _ _ _)

theorem mem_articleOrderBy (s : String) (l : List Article) (a : Article) :
    a ∈ articleOrderBy s l ↔ a ∈ l := by
  unfold articleOrderBy
  split <;> simp

/-- C10: the article listing only ever returns published articles, and
the article detail lookup resolves only published articles; an article
that is unpublished is not found (404). -/
theorem article_published_spec (p : ArticleParams) (db : List Article)
    (i : Nat) :
    (∀ a, a ∈ articleGetQueryset p db → a.published = true) ∧
    (∀ a, articleDetailObject db i = some a → a.published = true) ∧
    ((∀ a, a ∈ db → a.id = i → a.published = false) →
      articleDetailObject db i = none) := by
  refine ⟨?_, ?_, ?_⟩
  · intro a ha
    have h1 : a ∈ articleFilterResults p db := by
      simp only [articleGetQueryset] at ha
      split at ha
      · exact (mem_articleOrderBy _ _ a).mp ha
      · exact ha
    exact (mem_articlePublishedQs.mp
      ((articleFilterResults_sublist p db).subset h1)).2
  · intro a ha
    exact (mem_articlePublishedQs.mp (List.mem_of_find?_eq_some ha)).2
  · intro h
    rw [articleDetailObject, List.find?_eq_none]
    intro a ha
    obtain ⟨hmem, hpub⟩ := mem_articlePublishedQs.mp ha
    intro hbeq
    rw [h a hmem (by simpa using hbeq)] at hpub
    simp at hpub

/-- A published and an unpublished article used by witnesses. -/
def artP : Article :=
  ⟨1, "Reef basics", "reef-basics", "education", "text", "short", none,
    true, false, 50⟩

def artU : Article :=
  ⟨2, "Draft piece", "draft-piece", "news", "text2", "short2", none,
    false, false, 60⟩

/-- Witness for article_published_spec on a concrete store. -/
theorem article_published_witness :
    artP ∈ articleGetQueryset ⟨"", "", none⟩ [artP, artU] ∧
    artP.published = true ∧
    articleDetailObject [artP, artU] 2 = none :=
  ⟨by decide,
    (article_published_spec ⟨"", "", none⟩ [artP, artU] 2).1 artP
      (by decide),
    (article_published_spec ⟨"", "", none⟩ [artP, artU] 2).2.2
      (by decide)⟩

/-! ### Report submission forms (forms.py PollutionReportForm lines 62-98,
CoralSightingForm lines 101-136; views.py PollutionReportCreateView
lines 38-54) -/

/-- The client-submitted POST data of a report form. event_type and
severity carry whatever the client chose to send, whether or not the form
declares those fields. -/
structure ClientEventData where
  reef : Nat
  title : String
  description : String
  severity : String
  event_date : Nat
  notes : String
  event_type : String

/-- SEVERITY_CHOICES keys of the Event model. -/
def severityChoices : List String := ["low", "medium", "high", "critical"]

/-- Validation of the pollution report form fields
[reef, title, description, severity, event_date, notes]: required fields
non-empty, reef chosen from existing reefs, severity in choices. -/
def pollutionFormValid (reefs : List Reef) (d : ClientEventData) : Bool :=
  reefs.any (fun rf => rf.id == d.reef) && d.title != "" &&
    d.description != "" && severityChoices.contains d.severity

/-- PollutionReportCreateView.form_valid on a valid submission: the saved
Event, with event_type pinned to "pollution" by the form and the view and
reported_by set to the requesting user. The DB supplies the primary key
and created_at timestamp. -/
def pollution_report_create (reefs : List Reef) (user : Nat)
    (d : ClientEventData) (newId now : Nat) : Option EventRec :=
  if pollutionFormValid reefs d then
    some ⟨newId, d.reef, "pollution", d.title, d.description, d.severity,
      d.event_date, some user, now, false, d.notes⟩
  else none

/-- Validation of the coral sighting form fields
[reef, title, description, event_date, notes]. -/
def sightingFormValid (reefs : List Reef) (d : ClientEventData) : Bool :=
  reefs.any (fun rf => rf.id == d.reef) && d.title != "" &&
    d.description != ""

/-- Saving a valid coral sighting form: event_type pinned to "sighting"
and severity to "low" by the form constructor; severity is not among the
form fields, so the client value is never copied to the instance. -/
def coral_sighting_create (reefs : List Reef) (reporter : Option Nat)
    (d : ClientEventData) (newId now : Nat) : Option EventRec :=
  if sightingFormValid reefs d then
    some ⟨newId, d.reef, "sighting", d.title, d.description, "low",
      d.event_date, reporter, now, false, d.notes⟩
  else none

/-- C6: a validated pollution report always persists with event_type
"pollution", and a validated coral sighting always persists with
event_type "sighting" and severity "low", whatever event_type or severity
the client sent. -/
theorem report_forms_pin_fields (reefs : List Reef) (user newId now : Nat)
    (reporter : Option Nat) (d : ClientEventData) :
    (∀ e, pollution_report_create reefs user d newId now = some e →
      e.event_type = "pollution") ∧
    (∀ e, coral_sighting_create reefs reporter d newId now = some e →
      e.event_type = "sighting" ∧ e.severity = "low") := by
  constructor
  · intro e he
    rw [pollution_report_create] at he
    split at he
    · cases he
      rfl
    · cases he
  · intro e he
    rw [coral_sighting_create] at he
    split at he
    · cases he
      exact ⟨rfl, rfl⟩
    · cases he

/-- A concrete client submission that tries to override the pinned
fields. -/
def dMal : ClientEventData :=
  ⟨1, "Oil spill", "Oil on the water", "high", 20240115, "none",
    "restoration"⟩

/-- Witness for report_forms_pin_fields: a client-sent event_type
"restoration" and severity "high" do not leak into the pinned fields. -/
theorem report_forms_pin_fields_witness :
    pollution_report_create [reefA] 7 dMal 21 900 =
      some ⟨21, 1, "pollution", "Oil spill", "Oil on the water", "high",
        20240115, some 7, 900, false, "none"⟩ ∧
    (⟨21, 1, "pollution", "Oil spill", "Oil on the water", "high",
        20240115, some 7, 900, false, "none"⟩ : EventRec).event_type =
      "pollution" ∧
    coral_sighting_create [reefA] (some 7) dMal 22 901 =
      some ⟨22, 1, "sighting", "Oil spill", "Oil on the water", "low",
        20240115, some 7, 901, false, "none"⟩ ∧
    (⟨22, 1, "sighting", "Oil spill", "Oil on the water", "low",
        20240115, some 7, 901, false, "none"⟩ : EventRec).event_type =
      "sighting" ∧
    (⟨22, 1, "sighting", "Oil spill", "Oil on the water", "low",
        20240115, some 7, 901, false, "none"⟩ : EventRec).severity =
      "low" := by
  refine ⟨by decide, ?_, by decide, ?_, ?_⟩
  · exact (report_forms_pin_fields [reefA] 7 21 900 (some 7) dMal).1 _
      (by decide)
  · exact ((report_forms_pin_fields [reefA] 7 22 901 (some 7) dMal).2 _
      (by decide)).1
  · exact ((report_forms_pin_fields [reefA] 7 22 901 (some 7) dMal).2 _
      (by decide)).2

/-! ### Media upload validation (forms.py ImageUploadForm.clean,
lines 218-236) -/

/-- Video extensions checked against media_type "photo". -/
def videoFileExts : List String := ["mp4", "mov", "avi", "mkv", "webm"]

/-- Image extensions checked against media_type "video". -/
def imageFileExts : List String := ["jpg", "jpeg", "png", "gif", "bmp",
  "webp"]

/-- Python str.split("."): segments of the character list between dots. -/
def splitOnDot : List Char → List (List Char)
  | [] => [[]]
  | c :: rest =>
    match splitOnDot rest with
    | [] => [[]]
    | seg :: segs =>
      if c = '.' then [] :: seg :: segs else (c :: seg) :: segs

/-- file.name.split(".")[-1].lower() -/
def fileExt (name : String) : String :=
  String.mk (((splitOnDot name.toList).getLastD []).map Char.toLower)

def photoTypeVideoFileMsg : String :=
  "You selected \"Photo\" but uploaded a video file. Please select \"Video\" as media type."

def videoTypePhotoFileMsg : String :=
  "You selected \"Video\" but uploaded an image file. Please select \"Photo\" as media type."

/-- ImageUploadForm.clean: the cross-field extension/media_type check,
raising the mismatch ValidationError. -/
def imageUploadClean (media_type fileName : String) : Except String Unit :=
  if media_type == "photo" && videoFileExts.contains (fileExt fileName) then
    Except.error photoTypeVideoFileMsg
  else if media_type == "video" &&
      imageFileExts.contains (fileExt fileName) then
    Except.error videoTypePhotoFileMsg
  else Except.ok ()

/-- A media upload submission: on a clean() failure the form re-renders
with the error and nothing is persisted, otherwise the row is saved. -/
def image_upload_submit (db : List GalleryItem) (reef event : Option Nat)
    (media_type title description fileName : String) (user : Option Nat) :
    List GalleryItem × Option String :=
  match imageUploadClean media_type fileName with
  | Except.error e => (db, some e)
  | Except.ok _ =>
    (db ++ [⟨reef, event, media_type, title, description, fileName, user⟩],
      none)

/-- C7: media_type "photo" with a video file extension is rejected with
the photo/video mismatch message, media_type "video" with an image
extension with the distinct inverse message, and in both cases the
gallery table is unchanged. -/
theorem upload_type_mismatch_rejected (db : List GalleryItem)
    (reef event : Option Nat) (title description fileName : String)
    (user : Option Nat) :
    (videoFileExts.contains (fileExt fileName) = true →
      image_upload_submit db reef event "photo" title description
        fileName user = (db, some photoTypeVideoFileMsg)) ∧
    (imageFileExts.contains (fileExt fileName) = true →
      image_upload_submit db reef event "video" title description
        fileName user = (db, some videoTypePhotoFileMsg)) ∧
    photoTypeVideoFileMsg ≠ videoTypePhotoFileMsg := by
  refine ⟨?_, ?_, by decide⟩
  · intro h
    have hm : fileExt fileName ∈ videoFileExts := by simpa using h
    rw [image_upload_submit, imageUploadClean]
    simp [hm]
  · intro h
    have hm : fileExt fileName ∈ imageFileExts := by simpa using h
    rw [image_upload_submit, imageUploadClean]
    simp [hm]

/-- Witness for upload_type_mismatch_rejected: photo.mp4 declared as a
photo and clip.jpg declared as a video are both rejected. -/
theorem upload_type_mismatch_witness :
    videoFileExts.contains (fileExt "photo.mp4") = true ∧
    image_upload_submit [] none none "photo" "t" "d" "photo.mp4" none =
      ([], some photoTypeVideoFileMsg) ∧
    imageFileExts.contains (fileExt "clip.jpg") = true ∧
    image_upload_submit [] none none "video" "t" "d" "clip.jpg" none =
      ([], some videoTypePhotoFileMsg) :=
  ⟨by decide,
    (upload_type_mismatch_rejected [] none none "t" "d" "photo.mp4"
      none).1 (by decide),
    by decide,
    (upload_type_mismatch_rejected [] none none "t" "d" "clip.jpg"
      none).2.1 (by decide)⟩

/-! ### Cascade delete (models.py Event.reef lines 119-123,
ImageGallery lines 202-215: on_delete=CASCADE) -/

/-- The persisted tables reached by a reef deletion. -/
structure DB where
  reefs : List Reef
  events : List EventRec
  gallery : List GalleryItem

/-- Deleting a reef: the reef row goes, its events cascade, and gallery
items cascade when linked to the reef directly or to one of its events. -/
def delete_reef (db : DB) (rid : Nat) : DB :=
  let deadEventIds :=
    (db.events.filter (fun e => e.reef == rid)).map (fun e => e.id)
  { reefs := db.reefs.filter (fun rf => !(rf.id == rid)),
    events := db.events.filter (fun e => !(e.reef == rid)),
    gallery := db.gallery.filter (fun g =>
      !(g.reef == some rid) && !(match g.event with
        | some eid => deadEventIds.contains eid
        | none => false)) }

/-- C9: after deleting reef rid, no event of that reef remains, and no
gallery item linked to it directly or through one of its (pre-deletion)
events remains; the reef row itself is gone. -/
theorem reef_delete_cascades (db : DB) (rid : Nat) :
    (∀ rf, rf ∈ (delete_reef db rid).reefs → rf.id ≠ rid) ∧
    (∀ e, e ∈ (delete_reef db rid).events → e.reef ≠ rid) ∧
    (∀ g, g ∈ (delete_reef db rid).gallery →
      g.reef ≠ some rid ∧
      ∀ eid, g.event = some eid →
        ∀ e, e ∈ db.events → e.id = eid → e.reef ≠ rid) := by
  refine ⟨?_, ?_, ?_⟩
  · intro rf hrf
    have h := (List.mem_filter.mp hrf).2
    simpa using h
  · intro e he
    have h := (List.mem_filter.mp he).2
    simpa using h
  · intro g hg
    obtain ⟨hmem, hcond⟩ := List.mem_filter.mp hg
    rw [Bool.and_eq_true] at hcond
    obtain ⟨hc1, hc2⟩ := hcond
    constructor
    · intro heq
      rw [heq] at hc1
      simp at hc1
    · intro eid hge e he hid hreef
      rw [hge] at hc2
      have hmm : eid ∈ (db.events.filter (fun x => x.reef == rid)).map
          (fun x => x.id) :=
        List.mem_map.mpr ⟨e, List.mem_filter.mpr ⟨he, by simp [hreef]⟩, hid⟩
      have hcontains : ((db.events.filter (fun x => x.reef == rid)).map
          (fun x => x.id)).contains eid = true :=
        List.contains_iff_exists_mem_beq.mpr ⟨eid, hmm, by simp⟩
      simp [hcontains] at hc2
      exact hc2 e he hreef hid

/-- Concrete rows for the cascade witness. -/
def evA : EventRec :=
  ⟨11, 1, "pollution", "Spill", "desc", "high", 20240110, some 7, 100,
    false, ""⟩

def galA : GalleryItem :=
  ⟨none, some 11, "photo", "Spill photo", "", "spill.jpg", some 7⟩

/-- Witness for reef_delete_cascades: a gallery item attached to an event
of the deleted reef is cascaded away with the event. -/
theorem reef_delete_cascades_witness :
    (delete_reef ⟨[reefA], [evA], [galA]⟩ 1).events = [] ∧
    (delete_reef ⟨[reefA], [evA], [galA]⟩ 1).gallery = [] ∧
    (∀ rf, rf ∈ (delete_reef ⟨[reefA], [evA], [galA]⟩ 1).reefs →
      rf.id ≠ 1) :=
  ⟨by decide, by decide,
    (reef_delete_cascades ⟨[reefA], [evA], [galA]⟩ 1).1⟩

end ReefGuard
